import Mathlib

/-!
Verification of the frequency-band occupancy histogram engine of `mydarn`
(`Histogram.plot_freq_scan_hist` and `Histogram.plot_freq_scan_2d_hist` in
`src/mydarn/histogram.py`).

The Python code is shallowly embedded: records become a `Record` structure,
the caller-supplied band dictionary becomes an ordered association list
(Python dicts iterate in insertion order), and every raising operation
returns `Except Err`.

The engine performs just two kinds of arithmetic on the frequency values it
reads from records and the band table: order comparisons, and the band
center `(low + high) / 2`.  These values are Python floats holding exact
quantities (kHz values and their half-sums), so they are modelled by the
exact fraction type `PyNum` (`num / den` with a positive denominator, not
normalized), whose comparisons are the real-number comparisons obtained by
cross-multiplication; this keeps every definition computable by the kernel.
Scatter-point counts are naturals, and the normalized histograms (where the
code divides counts by counts) live in `ℚ`.

Rendering code (matplotlib / pydarn calls after the histogram is built) is
out of scope, matching the specification's scope; the embedded pipelines
stop at the returned ranked band list, with the plotted (normalized)
histogram exposed by separate definitions.
-/

namespace MyDarn

/-- An exact numeric value `num / den`.  The denominator is positive for
every value built by the embedding (band-table entries and record
frequencies are whole numbers `n / 1`, and the only produced value is the
band center, whose denominator is `2`). -/
structure PyNum where
  num : Int
  den : Int
deriving DecidableEq

/-- A whole-number value. -/
def PyNum.ofInt (n : Int) : PyNum := ⟨n, 1⟩

/-- The rational value of a `PyNum`. -/
def PyNum.toRat (a : PyNum) : ℚ := (a.num : ℚ) / (a.den : ℚ)

/-- Comparison `a < b` by cross-multiplication (the real-number comparison, for
positive denominators). -/
def pyLt (a b : PyNum) : Bool := a.num * b.den < b.num * a.den

/-- Comparison `a <= b`, the negation of `b < a`. -/
def pyLe (a b : PyNum) : Bool := !(pyLt b a)

/-- Value equality `a == b` by cross-multiplication. -/
def pyEq (a b : PyNum) : Bool := a.num * b.den == b.num * a.den

/-- Sum `a + b` as exact fractions. -/
def pyAdd (a b : PyNum) : PyNum := ⟨a.num * b.den + b.num * a.den, a.den * b.den⟩

/-- Halving, `a / 2`. -/
def pyHalf (a : PyNum) : PyNum := ⟨a.num, a.den * 2⟩

/-- Python float value relevant to the engine: a finite numeric value,
NaN, or an infinity.  `np.isnan` / `np.isinf` distinguish the three. -/
inductive FloatVal where
  | finite (q : PyNum)
  | nan
  | inf
deriving DecidableEq

/-- One FITACF record, restricted to the fields the engine reads:
`channel`, `tfreq`, `gflg` (absent key modelled as `none`), and the
`time.yr` / `time.mo` / `time.dy` / `time.hr` fields. -/
structure Record where
  channel : Int
  tfreq : FloatVal
  gflg : Option (List Int)
  yr : Nat
  mo : Nat
  dy : Nat
  hr : Nat
deriving DecidableEq

/-- A Python dict key: a string or an integer (distinct, as in Python,
where `d['2']` and `d[2]` are different keys). -/
inductive PyKey where
  | s (str : String)
  | i (n : Int)
deriving DecidableEq

/-- A value of the band dictionary before validation: either a Python list
of numbers, or some non-list object. -/
inductive BandVal where
  | vlist (xs : List PyNum)
  | other
deriving DecidableEq

/-- The `freq_bands` argument: a dict (entries in insertion order) or a
non-dict object. -/
inductive FreqBandsArg where
  | dict (entries : List (PyKey × BandVal))
  | notDict
deriving DecidableEq

/-- Failure kinds.  `invalidInput` stands for the `TypeError`s raised by the
validation and omit-resolution code, `valueError` for Python `ValueError`
(empty `min()` / `max()`, bad `date_bin`, `list.index` miss, unparsable
`int(key)`), `nameError` for use of an unbound local variable, and
`dataUnavailable` for the spec's empty-extraction error kind. -/
inductive Err where
  | invalidInput
  | dataUnavailable
  | valueError
  | nameError
deriving DecidableEq

/-- A `datetime` value as used for time bucketing (year, month, day, hour;
unset components take `datetime`'s own defaults 1, 1, 1, 0). -/
structure Date4 where
  yr : Nat
  mo : Nat
  dy : Nat
  hr : Nat
deriving DecidableEq

/-- One entry of the returned ranked band list:
`{'Band': int(i), 'Freq Range': bands[i], 'Count': int(hist[i])}`. -/
structure OBand1 where
  band : Nat
  lo : PyNum
  hi : PyNum
  count : Nat
deriving DecidableEq

deriving instance DecidableEq for Except

/-- Shorthand for the whole-number value `n / 1`. -/
def pn (n : Int) : PyNum := ⟨n, 1⟩

/-- Entries of the `freq_bands` argument (`[]` for a non-dict). -/
def entriesOf : FreqBandsArg → List (PyKey × BandVal)
  | .dict es => es
  | .notDict => []

/-- The validation block of both entry points: `freq_bands` must be a dict
and every value a list of length two (`type(band) != list` /
`len(band) != 2` each raise `TypeError`). -/
def validBands : FreqBandsArg → Bool
  | .notDict => false
  | .dict es => es.all fun e =>
      match e.2 with
      | .vlist xs => xs.length == 2
      | .other => false

/-- The validated dictionary as a list of `(key, (low, high))` entries. -/
def bandPairs (es : List (PyKey × BandVal)) : List (PyKey × PyNum × PyNum) :=
  es.filterMap fun e =>
    match e.2 with
    | .vlist [a, b] => some (e.1, a, b)
    | _ => none

/-- Python list comparison `[a1, a2] < [b1, b2]` (lexicographic). -/
def pairLtPy (a b : PyNum × PyNum) : Bool :=
  pyLt a.1 b.1 || (pyEq a.1 b.1 && pyLt a.2 b.2)

/-- Python `min` over a list of two-element lists: first minimum in
iteration order, `none` for an empty sequence (which raises). -/
def pyMinPair : List (PyNum × PyNum) → Option (PyNum × PyNum)
  | [] => none
  | v :: rest => some (rest.foldl (fun m x => if pairLtPy x m then x else m) v)

/-- Python `max` over a list of two-element lists: first maximum in
iteration order. -/
def pyMaxPair : List (PyNum × PyNum) → Option (PyNum × PyNum)
  | [] => none
  | v :: rest => some (rest.foldl (fun m x => if pairLtPy m x then x else m) v)

/-- Python `min` over the two-element list `[a, b]`. -/
def pyMin2 (a b : PyNum) : PyNum := if pyLe a b then a else b

/-- Python `max` over the two-element list `[a, b]`. -/
def pyMax2 (a b : PyNum) : PyNum := if pyLt a b then b else a

/-- The default boundary `(min(min(freq_bands.values())), max(max(freq_bands.values())))`:
the inner `min` / `max` act on a two-element list `[low, high]`.  An empty
dict raises `ValueError` from `min(())`. -/
def defaultBoundary (vs : List (PyNum × PyNum)) : Except Err (PyNum × PyNum) :=
  match pyMinPair vs, pyMaxPair vs with
  | some m, some M => .ok (pyMin2 m.1 m.2, pyMax2 M.1 M.2)
  | _, _ => .error .valueError

/-- Boundary resolution: `if boundary == None: boundary = ...` -/
def resolveBoundary (boundary : Option (PyNum × PyNum))
    (vs : List (PyNum × PyNum)) : Except Err (PyNum × PyNum) :=
  match boundary with
  | some b => .ok b
  | none => defaultBoundary vs

/-- The boundary the specification's words prescribe: `(min of all lows,
max of all highs)`.  Stated from the spec, for comparison with
`defaultBoundary`. -/
def specDefaultBoundary (vs : List (PyNum × PyNum)) : Option (PyNum × PyNum) :=
  match vs with
  | [] => none
  | v :: rest =>
      some ((rest.map Prod.fst).foldl pyMin2 v.1,
            (rest.map Prod.snd).foldl pyMax2 v.2)

/-- The band center `(value[0] + value[1]) / 2`. -/
def bandCenter (b : PyNum × PyNum) : PyNum := pyHalf (pyAdd b.1 b.2)

/-- 1D band filter, as the source writes it: skip when `center <=
boundary[0] or center >= boundary[1]`. -/
def keep1d (bd : PyNum × PyNum) (b : PyNum × PyNum) : Bool :=
  !(pyLe (bandCenter b) bd.1 || pyLe bd.2 (bandCenter b))

/-- The 1D "Gather Bands" loop over `freq_bands.items()`. -/
def gatherBands1d (entries : List (PyKey × PyNum × PyNum)) (bd : PyNum × PyNum) :
    List (PyKey × PyNum × PyNum) :=
  entries.filter fun e => keep1d bd e.2

/-- 2D band filter, as the source writes it: skip when `value[0] <
boundary[0] or value[1] > boundary[1]`. -/
def keep2d (bd : PyNum × PyNum) (b : PyNum × PyNum) : Bool :=
  !(pyLt b.1 bd.1 || pyLt bd.2 b.2)

/-- Python `int(str)` digit parsing (an optional sign, then digits). -/
def parseDigits : List Char → Option Nat
  | [] => none
  | cs => cs.foldl (fun acc c =>
      match acc with
      | none => none
      | some n => if '0' ≤ c ∧ c ≤ '9' then some (n * 10 + (c.toNat - '0'.toNat))
                  else none) (some 0)

/-- Conversion `int(key)`: identity on an int key, digit parsing on a string key
(raising `ValueError` when unparsable). -/
def intOfKey : PyKey → Except Err Int
  | .i n => .ok n
  | .s str =>
      match str.data with
      | '-' :: cs =>
        match parseDigits cs with
        | some n => .ok (-(n : Int))
        | none => .error .valueError
      | cs =>
        match parseDigits cs with
        | some n => .ok (n : Int)
        | none => .error .valueError

/-- The 2D "Gather Bands" loop: filters by `keep2d` and converts each
retained key with `int(key)`. -/
def gatherBands2d (bd : PyNum × PyNum) : List (PyKey × PyNum × PyNum) →
    Except Err (List (Int × PyNum × PyNum))
  | [] => .ok []
  | e :: es =>
    if keep2d bd e.2 then
      match intOfKey e.1 with
      | .error err => .error err
      | .ok k =>
        match gatherBands2d bd es with
        | .error err => .error err
        | .ok l => .ok ((k, e.2) :: l)
    else gatherBands2d bd es

/-- First-match lookup in the original dict (Python `freq_bands[str(band)]`). -/
def dictLookup : List (PyKey × BandVal) → PyKey → Option BandVal
  | [], _ => none
  | e :: es, k => if e.1 = k then some e.2 else dictLookup es k

/-- Shape extraction for a validated two-element band value. -/
def pairOfVal : BandVal → Option (PyNum × PyNum)
  | .vlist [a, b] => some (a, b)
  | _ => none

/-- One lookup `freq_bands[str(band)]` of the omit-resolution comprehension. -/
def omitLookup (es : List (PyKey × BandVal)) (b : Int) : Option (PyNum × PyNum) :=
  (dictLookup es (PyKey.s (toString b))).bind pairOfVal

/-- The comprehension `[freq_bands[str(band)] for band in omit_bands]`. -/
def omitList (es : List (PyKey × BandVal)) : List Int → Option (List (PyNum × PyNum))
  | [] => some []
  | b :: bs =>
    match omitLookup es b with
    | none => none
    | some r =>
      match omitList es bs with
      | none => none
      | some rs => some (r :: rs)

/-- The "Remove Bands" block of both entry points, raising `TypeError`
when any lookup fails. -/
def resolveOmit (fbArg : FreqBandsArg) (omitBands : Option (List Int)) :
    Except Err (Option (List (PyNum × PyNum))) :=
  match omitBands with
  | none => .ok none
  | some bs =>
    match omitList (entriesOf fbArg) bs with
    | some l => .ok (some l)
    | none => .error .invalidInput

/-- Membership test `band[0] <= freq <= band[1]`. -/
def bandHas (b : PyNum × PyNum) (f : PyNum) : Bool :=
  pyLe b.1 f && pyLe f b.2

/-- The omitted-band test `any(band[0] <= freq <= band[1] for band in remove_bands)`, guarded by
`omit_bands != None`. -/
def omitHit (rm : Option (List (PyNum × PyNum))) (f : PyNum) : Bool :=
  match rm with
  | some rbs => rbs.any fun b => bandHas b f
  | none => false

/-- Number of positions where `gflg == 0` (ionospheric scatter points). -/
def count0 (g : List Int) : Nat :=
  (g.filter fun x => x == 0).length

/-- Index of the first band whose closed interval contains `freq`. -/
def firstMatch : List (PyNum × PyNum) → PyNum → Option Nat
  | [], _ => none
  | b :: bs, f =>
    if bandHas b f then some 0 else (firstMatch bs f).map (· + 1)

/-- Increment `hist[i] += n`. -/
def bump : List Nat → Nat → Nat → List Nat
  | [], _, _ => []
  | c :: cs, 0, n => (c + n) :: cs
  | c :: cs, Nat.succ i, n => c :: bump cs i n

/-- The 1D inner loop `for i in range(len(bands)): if bands[i][0] <= freq <=
bands[i][1]: hist[i] += num_pts; break`, walking `bands` and `hist` in
parallel. -/
def addFirst : List (PyNum × PyNum) → PyNum → Nat → List Nat → List Nat
  | [], _, _, hist => hist
  | _ :: _, _, _, [] => []
  | b :: bs, f, n, c :: cs =>
    if bandHas b f then (c + n) :: cs else c :: addFirst bs f n cs

/-- One iteration of the 1D "Generate Histogram" loop, with the source's
skip conditions in source order. -/
def histStep1d (bands : List (PyNum × PyNum)) (bd : PyNum × PyNum)
    (rm : Option (List (PyNum × PyNum))) (hist : List Nat) (r : Record) :
    List Nat :=
  if r.channel = 2 then
    match r.tfreq with
    | .nan => hist
    | .inf => hist
    | .finite f =>
      if pyLe f bd.1 || pyLe bd.2 f then hist
      else if omitHit rm f then hist
      else
        match r.gflg with
        | none => hist
        | some g => addFirst bands f (count0 g) hist
  else hist

/-- The 1D "Generate Histogram" loop. -/
def rawHist1dAux (bands : List (PyNum × PyNum)) (bd : PyNum × PyNum)
    (rm : Option (List (PyNum × PyNum))) : List Record → List Nat → List Nat
  | [], hist => hist
  | r :: rs, hist => rawHist1dAux bands bd rm rs (histStep1d bands bd rm hist r)

/-- Histogram `hist = np.zeros(len(bin_centers))` followed by the extraction loop. -/
def rawHist1d (bands : List (PyNum × PyNum)) (bd : PyNum × PyNum)
    (rm : Option (List (PyNum × PyNum))) (data : List Record) : List Nat :=
  rawHist1dAux bands bd rm data (List.replicate bands.length 0)

/-- The retention predicate exactly as claim C1 words it: channel is 2,
`tfreq` is neither NaN nor infinite, `tfreq` is strictly between the
boundary's endpoints, `tfreq` lies inside no omitted interval (inclusive
bounds), and the record has a `gflg` sequence. -/
def specRetained (bd : PyNum × PyNum) (rm : Option (List (PyNum × PyNum)))
    (r : Record) : Bool :=
  (r.channel == 2) &&
  (match r.tfreq with
   | .finite f => pyLt bd.1 f && pyLt f bd.2 && !(omitHit rm f) && r.gflg.isSome
   | .nan => false
   | .inf => false)

/-- The extraction step as claim C1 words it: a retained record adds its
ionospheric count to the first band (in filtered order) whose closed
interval contains `tfreq`; otherwise nothing changes. -/
def specStep1d (bands : List (PyNum × PyNum)) (bd : PyNum × PyNum)
    (rm : Option (List (PyNum × PyNum))) (hist : List Nat) (r : Record) :
    List Nat :=
  if specRetained bd rm r then
    match r.tfreq, r.gflg with
    | .finite f, some g =>
      match firstMatch bands f with
      | some i => bump hist i (count0 g)
      | none => hist
    | _, _ => hist
  else hist

/-- Ranking order `np.argsort(hist)[::-1]`: stable ascending argsort, reversed. -/
def argsortDesc (v : List Nat) : List Nat :=
  (List.insertionSort (fun i j => v.getD i 0 ≤ v.getD j 0)
    (List.range v.length)).reverse

/-- The "Ordered Frequency Bands" block: `ordered_bands = [{'Band': int(i),
'Freq Range': bands[i], 'Count': int(hist[i])} for i in ordered_keys]`. -/
def orderedBands1d (bands : List (PyNum × PyNum)) (hist : List Nat) :
    List OBand1 :=
  (argsortDesc hist).map fun i =>
    ⟨i, (bands.getD i (⟨0, 1⟩, ⟨0, 1⟩)).1, (bands.getD i (⟨0, 1⟩, ⟨0, 1⟩)).2,
      hist.getD i 0⟩

/-- 1D normalization: `if normalize and np.sum(hist) != 0: hist = hist /
np.sum(hist)` (the histogram as plotted). -/
def finalHist1d (normalize : Bool) (hist : List Nat) : List ℚ :=
  if normalize ∧ hist.sum ≠ 0 then
    hist.map fun c => (c : ℚ) / (hist.sum : ℚ)
  else
    hist.map fun c => (c : ℚ)

/-- Column sum `np.sum(hist2d[:, column])`. -/
def colSum (m : List (List Nat)) (j : Nat) : Nat :=
  (m.map fun row => row.getD j 0).sum

/-- 2D column normalization: each column with positive sum is divided by
its sum; other columns are untouched. -/
def normalizeCols (m : List (List Nat)) : List (List ℚ) :=
  m.map fun row =>
    (List.range row.length).map fun j =>
      if 0 < colSum m j then (row.getD j 0 : ℚ) / (colSum m j : ℚ)
      else (row.getD j 0 : ℚ)

/-- The 2D histogram as plotted (before outlier suppression). -/
def finalHist2d (normalize : Bool) (m : List (List Nat)) : List (List ℚ) :=
  if normalize then normalizeCols m
  else m.map fun row => row.map fun c => (c : ℚ)

/-- The date computed by the "Gather Dates" dispatch for one channel-2
record.  `last` is the current value of the shared `date` variable: for an
odd hour in `'hour'` mode no assignment happens and the variable keeps it;
an unrecognized `date_bin` raises `ValueError` here. -/
def gatherDateOf (dateBin : String) (last : Option Date4) (r : Record) :
    Except Err (Option Date4) :=
  if dateBin = "year" then .ok (some ⟨r.yr, 1, 1, 0⟩)
  else if dateBin = "month" then .ok (some ⟨1, r.mo, 1, 0⟩)
  else if dateBin = "day" then .ok (some ⟨r.yr, r.mo, r.dy, 0⟩)
  else if dateBin = "hour" then
    .ok (if r.hr % 2 = 0 then some ⟨1, 1, 1, r.hr⟩ else last)
  else .error .valueError

/-- The "Gather Dates" loop.  `dates` accumulates first-seen bucket keys;
`last` is the `date` variable (still unbound at entry, hence
`NameError` when `if date not in dates` runs with no assignment yet). -/
def gatherDatesAux (dateBin : String) :
    List Record → List Date4 → Option Date4 →
    Except Err (List Date4 × Option Date4)
  | [], dates, last => .ok (dates, last)
  | r :: rs, dates, last =>
    if r.channel = 2 then
      match gatherDateOf dateBin last r with
      | .error e => .error e
      | .ok none => .error .nameError
      | .ok (some d) =>
        gatherDatesAux dateBin rs (if d ∈ dates then dates else dates ++ [d])
          (some d)
    else gatherDatesAux dateBin rs dates last

/-- The "Gather Dates" phase of `plot_freq_scan_2d_hist`, returning the
bucket keys in first-seen order and the final value of the `date`
variable (which the histogram loop then starts from). -/
def gatherDates (dateBin : String) (data : List Record) :
    Except Err (List Date4 × Option Date4) :=
  gatherDatesAux dateBin data [] none

/-- The date computation inside the 2D histogram loop.  Unlike the gather
loop it has no `else: raise`, so an unmatched `date_bin` (and an odd hour
in `'hour'` mode) leaves the `date` variable at its previous value. -/
def dateOf (dateBin : String) (last : Option Date4) (r : Record) :
    Option Date4 :=
  if dateBin = "year" then some ⟨r.yr, 1, 1, 0⟩
  else if dateBin = "month" then some ⟨1, r.mo, 1, 0⟩
  else if dateBin = "day" then some ⟨r.yr, r.mo, r.dy, 0⟩
  else if dateBin = "hour" then
    if r.hr % 2 = 0 then some ⟨1, 1, 1, r.hr⟩ else last
  else last

/-- Python `dates.index(date)`: index of the first equal element
(`ValueError` when absent, modelled by `none`). -/
def idxOfDate : List Date4 → Date4 → Option Nat
  | [], _ => none
  | d0 :: ds, d =>
    if d0 = d then some 0 else (idxOfDate ds d).map (· + 1)

/-- Increment `hist2d[i, j] += n`. -/
def bump2d : List (List Nat) → Nat → Nat → Nat → List (List Nat)
  | [], _, _, _ => []
  | row :: rest, 0, j, n => bump row j n :: rest
  | row :: rest, Nat.succ i, j, n => row :: bump2d rest i j n

/-- One iteration of the 2D "Generate Histogram" loop.  The state is the
matrix together with the current value of the `date` variable. -/
def histStep2d (bands : List (PyNum × PyNum)) (bd : PyNum × PyNum)
    (rm : Option (List (PyNum × PyNum))) (dateBin : String)
    (dates : List Date4) (st : List (List Nat) × Option Date4) (r : Record) :
    Except Err (List (List Nat) × Option Date4) :=
  if r.channel = 2 then
    match r.tfreq with
    | .nan => .ok st
    | .inf => .ok st
    | .finite f =>
      if pyLe f bd.1 || pyLe bd.2 f then .ok st
      else if omitHit rm f then .ok st
      else
        match r.gflg with
        | none => .ok st
        | some g =>
          match firstMatch bands f with
          | none => .ok st
          | some i =>
            match dateOf dateBin st.2 r with
            | none => .error .nameError
            | some d =>
              match idxOfDate dates d with
              | none => .error .valueError
              | some j => .ok (bump2d st.1 i j (count0 g), some d)
  else .ok st

/-- The 2D "Generate Histogram" loop. -/
def extract2dAux (bands : List (PyNum × PyNum)) (bd : PyNum × PyNum)
    (rm : Option (List (PyNum × PyNum))) (dateBin : String)
    (dates : List Date4) :
    List Record → List (List Nat) → Option Date4 →
    Except Err (List (List Nat) × Option Date4)
  | [], m, last => .ok (m, last)
  | r :: rs, m, last =>
    match histStep2d bands bd rm dateBin dates (m, last) r with
    | .error e => .error e
    | .ok (m2, last2) => extract2dAux bands bd rm dateBin dates rs m2 last2

/-- Entry point `plot_freq_scan_hist`, up to the returned ranked band list (rendering
omitted).  The `normalize` flag does not influence the return value; the
plotted histogram is `finalHist1d normalize (rawHist1d ...)`. -/
def plotFreqScanHist (data : List Record) (fbArg : FreqBandsArg)
    (boundary : Option (PyNum × PyNum)) (omitBands : Option (List Int)) :
    Except Err (List OBand1) :=
  if validBands fbArg then
    let entries := bandPairs (entriesOf fbArg)
    match resolveBoundary boundary (entries.map Prod.snd) with
    | .error e => .error e
    | .ok bd =>
      match resolveOmit fbArg omitBands with
      | .error e => .error e
      | .ok rm =>
        let bands := (gatherBands1d entries bd).map fun e => e.2
        .ok (orderedBands1d bands (rawHist1d bands bd rm data))
  else .error .invalidInput

/-- The dates and raw count matrix computed by `plot_freq_scan_2d_hist`
(the `hist2d` intermediate, before normalization and display masking). -/
def freqScan2dMatrix (data : List Record) (fbArg : FreqBandsArg)
    (dateBin : String) (boundary : Option (PyNum × PyNum))
    (omitBands : Option (List Int)) :
    Except Err (List Date4 × List (List Nat)) :=
  if validBands fbArg then
    let entries := bandPairs (entriesOf fbArg)
    match resolveBoundary boundary (entries.map Prod.snd) with
    | .error e => .error e
    | .ok bd =>
      match gatherBands2d bd entries with
      | .error e => .error e
      | .ok kb =>
        let bands := kb.map fun e => e.2
        match resolveOmit fbArg omitBands with
        | .error e => .error e
        | .ok rm =>
          match gatherDates dateBin data with
          | .error e => .error e
          | .ok (dates, last0) =>
            match extract2dAux bands bd rm dateBin dates data
                (List.replicate bands.length (List.replicate dates.length 0))
                last0 with
            | .error e => .error e
            | .ok (m, _) => .ok (dates, m)
  else .error .invalidInput

/-- Entry point `plot_freq_scan_2d_hist`, up to the returned ranked band list
(rendering omitted).  Ranking totals each band's row of the matrix. -/
def plotFreqScan2dHist (data : List Record) (fbArg : FreqBandsArg)
    (dateBin : String) (boundary : Option (PyNum × PyNum))
    (omitBands : Option (List Int)) : Except Err (List OBand1) :=
  if validBands fbArg then
    let entries := bandPairs (entriesOf fbArg)
    match resolveBoundary boundary (entries.map Prod.snd) with
    | .error e => .error e
    | .ok bd =>
      match gatherBands2d bd entries with
      | .error e => .error e
      | .ok kb =>
        let bands := kb.map fun e => e.2
        match resolveOmit fbArg omitBands with
        | .error e => .error e
        | .ok rm =>
          match gatherDates dateBin data with
          | .error e => .error e
          | .ok (dates, last0) =>
            match extract2dAux bands bd rm dateBin dates data
                (List.replicate bands.length (List.replicate dates.length 0))
                last0 with
            | .error e => .error e
            | .ok (m, _) => .ok (orderedBands1d bands (m.map List.sum))
  else .error .invalidInput

/-! Helper lemmas shared by the claim theorems. -/

theorem addFirst_eq (bands : List (PyNum × PyNum)) (f : PyNum) (n : Nat)
    (hist : List Nat) :
    addFirst bands f n hist =
      match firstMatch bands f with
      | some i => bump hist i n
      | none => hist := by
  induction bands generalizing hist with
  | nil => simp [addFirst, firstMatch]
  | cons b bs ih =>
    cases hist with
    | nil =>
      simp only [addFirst, firstMatch]
      by_cases h : bandHas b f = true
      · simp [h, bump]
      · simp only [h, if_neg, Bool.false_eq_true, if_false]
        cases hm : firstMatch bs f <;> simp [hm, bump]
    | cons c cs =>
      simp only [addFirst, firstMatch]
      by_cases h : bandHas b f = true
      · simp [h, bump]
      · simp only [h, Bool.false_eq_true, if_false]
        rw [ih]
        cases hm : firstMatch bs f <;> simp [hm, bump]

theorem histStep1d_eq_specStep1d (bands : List (PyNum × PyNum))
    (bd : PyNum × PyNum) (rm : Option (List (PyNum × PyNum)))
    (hist : List Nat) (r : Record) :
    histStep1d bands bd rm hist r = specStep1d bands bd rm hist r := by
  unfold histStep1d specStep1d specRetained
  by_cases hch : r.channel = 2
  · simp only [hch, if_pos, beq_self_eq_true, Bool.true_and]
    cases htf : r.tfreq with
    | nan => simp
    | inf => simp
    | finite f =>
      by_cases h1 : (pyLe f bd.1 || pyLe bd.2 f) = true
      · have h1' : (pyLt bd.1 f && pyLt f bd.2) = false := by
          rcases Bool.or_eq_true_iff.mp h1 with h | h <;>
            simp only [pyLe, Bool.not_eq_true'] at h <;>
            simp [h]
        simp [h1, h1']
      · have h1a : pyLt bd.1 f = true := by
          rcases Bool.not_eq_true _ |>.mp h1 |> Bool.or_eq_false_iff.mp with ⟨ha, _⟩
          simpa [pyLe, Bool.not_eq_false] using ha
        have h1b : pyLt f bd.2 = true := by
          rcases Bool.not_eq_true _ |>.mp h1 |> Bool.or_eq_false_iff.mp with ⟨_, hb⟩
          simpa [pyLe, Bool.not_eq_false] using hb
        by_cases h2 : omitHit rm f = true
        · simp [h1, h2]
        · cases hg : r.gflg with
          | none => simp [h1, h2, hg]
          | some g =>
            simp only [h1, Bool.false_eq_true, if_false, h2, hg,
              Bool.not_false, h1a, h1b, Bool.and_true, Bool.and_self,
              Option.isSome_some, if_true, Bool.not_eq_true] at *
            rw [addFirst_eq]
  · have : (r.channel == 2) = false := by simpa using hch
    simp [hch, this]

theorem specRetained_finite_elim (bd : PyNum × PyNum)
    (rm : Option (List (PyNum × PyNum))) (r : Record) (f : PyNum)
    (h : specRetained bd rm r = true) (htf : r.tfreq = .finite f) :
    r.channel = 2 ∧ pyLt bd.1 f = true ∧ pyLt f bd.2 = true ∧
      omitHit rm f = false ∧ r.gflg.isSome = true := by
  unfold specRetained at h
  rw [htf] at h
  simp only [Bool.and_eq_true, beq_iff_eq, Bool.not_eq_true'] at h
  exact ⟨h.1, h.2.1.1.1, h.2.1.1.2, h.2.1.2, h.2.2⟩

theorem histStep2d_not_retained (bands : List (PyNum × PyNum))
    (bd : PyNum × PyNum) (rm : Option (List (PyNum × PyNum)))
    (dateBin : String) (dates : List Date4)
    (st : List (List Nat) × Option Date4) (r : Record)
    (h : specRetained bd rm r = false) :
    histStep2d bands bd rm dateBin dates st r = .ok st := by
  unfold histStep2d
  by_cases hch : r.channel = 2
  · simp only [hch, if_pos]
    cases htf : r.tfreq with
    | nan => rfl
    | inf => rfl
    | finite f =>
      unfold specRetained at h
      rw [htf] at h
      simp only [hch, beq_self_eq_true, Bool.true_and, Bool.and_eq_false_iff,
        Bool.not_eq_false', Bool.not_eq_true] at h
      by_cases h1 : (pyLe f bd.1 || pyLe bd.2 f) = true
      · simp [h1]
      · have h1a : pyLt bd.1 f = true := by
          rcases Bool.not_eq_true _ |>.mp h1 |> Bool.or_eq_false_iff.mp with ⟨ha, _⟩
          simpa [pyLe, Bool.not_eq_false] using ha
        have h1b : pyLt f bd.2 = true := by
          rcases Bool.not_eq_true _ |>.mp h1 |> Bool.or_eq_false_iff.mp with ⟨_, hb⟩
          simpa [pyLe, Bool.not_eq_false] using hb
        by_cases h2 : omitHit rm f = true
        · simp [h1, h2]
        · cases hg : r.gflg with
          | none => simp [h1, h2, hg]
          | some g =>
            exfalso
            rcases h with h | h
            · rcases h with h | h
              · rcases h with h | h
                · exact absurd h1a (by simp [h])
                · exact absurd h1b (by simp [h])
              · exact h2 (by simp [h])
            · rw [hg] at h
              simp at h
  · simp [hch]

theorem histStep2d_no_band (bands : List (PyNum × PyNum))
    (bd : PyNum × PyNum) (rm : Option (List (PyNum × PyNum)))
    (dateBin : String) (dates : List Date4)
    (st : List (List Nat) × Option Date4) (r : Record) (f : PyNum)
    (htf : r.tfreq = .finite f) (h : specRetained bd rm r = true)
    (hfm : firstMatch bands f = none) :
    histStep2d bands bd rm dateBin dates st r = .ok st := by
  obtain ⟨hch, h1a, h1b, h2, hg⟩ := specRetained_finite_elim bd rm r f h htf
  unfold histStep2d
  rw [if_pos hch, htf]
  have h1 : (pyLe f bd.1 || pyLe bd.2 f) = false := by
    simp [pyLe, h1a, h1b]
  simp only [h1, Bool.false_eq_true, if_false, h2]
  obtain ⟨g, hgf⟩ := Option.isSome_iff_exists.mp hg
  simp [hgf, hfm]

theorem histStep2d_hit (bands : List (PyNum × PyNum))
    (bd : PyNum × PyNum) (rm : Option (List (PyNum × PyNum)))
    (dateBin : String) (dates : List Date4)
    (st : List (List Nat) × Option Date4) (r : Record) (f : PyNum)
    (g : List Int) (i : Nat) (d : Date4) (j : Nat)
    (htf : r.tfreq = .finite f) (hgf : r.gflg = some g)
    (h : specRetained bd rm r = true)
    (hfm : firstMatch bands f = some i)
    (hdt : dateOf dateBin st.2 r = some d)
    (hix : idxOfDate dates d = some j) :
    histStep2d bands bd rm dateBin dates st r =
      .ok (bump2d st.1 i j (count0 g), some d) := by
  obtain ⟨hch, h1a, h1b, h2, _⟩ := specRetained_finite_elim bd rm r f h htf
  unfold histStep2d
  rw [if_pos hch, htf]
  have h1 : (pyLe f bd.1 || pyLe bd.2 f) = false := by
    simp [pyLe, h1a, h1b]
  simp only [h1, Bool.false_eq_true, if_false, h2, hgf, hfm, hdt, hix]

theorem rawHist1dAux_eq_specFold (bands : List (PyNum × PyNum))
    (bd : PyNum × PyNum) (rm : Option (List (PyNum × PyNum)))
    (data : List Record) (hist : List Nat) :
    rawHist1dAux bands bd rm data hist =
      data.foldl (specStep1d bands bd rm) hist := by
  induction data generalizing hist with
  | nil => rfl
  | cons r rs ih =>
    simp only [rawHist1dAux, List.foldl_cons, histStep1d_eq_specStep1d, ih]

theorem dateOf_hour (last : Option Date4) (r : Record) :
    dateOf "hour" last r =
      if r.hr % 2 = 0 then some ⟨1, 1, 1, r.hr⟩ else last := by
  unfold dateOf
  rw [if_neg (by decide), if_neg (by decide), if_neg (by decide), if_pos rfl]

theorem gatherDateOf_hour (last : Option Date4) (r : Record) :
    gatherDateOf "hour" last r =
      .ok (if r.hr % 2 = 0 then some ⟨1, 1, 1, r.hr⟩ else last) := by
  unfold gatherDateOf
  rw [if_neg (by decide), if_neg (by decide), if_neg (by decide), if_pos rfl]

theorem rawHist1dAux_skip (bands : List (PyNum × PyNum)) (bd : PyNum × PyNum)
    (rm : Option (List (PyNum × PyNum))) (data : List Record)
    (hist : List Nat) (h : ∀ r ∈ data, r.channel ≠ 2) :
    rawHist1dAux bands bd rm data hist = hist := by
  induction data generalizing hist with
  | nil => rfl
  | cons r rs ih =>
    have hr : r.channel ≠ 2 := h r (by simp)
    simp only [rawHist1dAux, histStep1d, if_neg hr]
    exact ih _ fun x hx => h x (by simp [hx])

theorem getD_replicate_zero (n i : Nat) :
    (List.replicate n (0 : Nat)).getD i 0 = 0 := by
  induction n generalizing i with
  | zero => simp [List.getD]
  | succ k ih =>
    cases i with
    | zero => simp [List.replicate]
    | succ j => simp only [List.replicate, List.getD_cons_succ]; exact ih j

theorem orderedBands1d_mem_count (bands : List (PyNum × PyNum))
    (hist : List Nat) (ob : OBand1) (h : ob ∈ orderedBands1d bands hist) :
    ob.count = hist.getD ob.band 0 := by
  unfold orderedBands1d at h
  obtain ⟨i, _, rfl⟩ := List.mem_map.mp h
  rfl

theorem gatherBands2d_ok_snd (bd : PyNum × PyNum) :
    ∀ (entries : List (PyKey × PyNum × PyNum)) (l : List (Int × PyNum × PyNum)),
      gatherBands2d bd entries = .ok l →
      l.map Prod.snd = (entries.filter fun e => keep2d bd e.2).map Prod.snd := by
  intro entries
  induction entries with
  | nil =>
    intro l h
    unfold gatherBands2d at h
    injection h with h'
    subst h'
    rfl
  | cons e es ih =>
    intro l h
    unfold gatherBands2d at h
    by_cases hk : keep2d bd e.2 = true
    · rw [if_pos hk] at h
      cases hik : intOfKey e.1 with
      | error err => rw [hik] at h; exact absurd h (by simp)
      | ok k =>
        rw [hik] at h
        cases hg : gatherBands2d bd es with
        | error err => rw [hg] at h; exact absurd h (by simp)
        | ok l2 =>
          rw [hg] at h
          injection h with h'
          subst h'
          simp only [List.map_cons, List.filter_cons, hk, if_true]
          rw [ih l2 hg]
    · rw [if_neg hk] at h
      have hW := ih l h
      simp only [List.filter_cons, hk, Bool.false_eq_true, if_false]
      exact hW

theorem argsortDesc_pairwise (v : List Nat) :
    List.Pairwise (fun i j => v.getD j 0 ≤ v.getD i 0) (argsortDesc v) := by
  unfold argsortDesc
  rw [List.pairwise_reverse]
  haveI : IsTotal Nat (fun i j => v.getD i 0 ≤ v.getD j 0) :=
    ⟨fun a b => Nat.le_total _ _⟩
  haveI : IsTrans Nat (fun i j => v.getD i 0 ≤ v.getD j 0) :=
    ⟨fun a b c hab hbc => le_trans hab hbc⟩
  exact List.sorted_insertionSort _ _

theorem argsortDesc_perm (v : List Nat) :
    (argsortDesc v).Perm (List.range v.length) := by
  unfold argsortDesc
  exact (List.reverse_perm _).trans (List.perm_insertionSort _ _)

theorem orderedBands1d_pairwise (bands : List (PyNum × PyNum))
    (hist : List Nat) :
    List.Pairwise (fun a b : OBand1 => b.count ≤ a.count)
      (orderedBands1d bands hist) := by
  unfold orderedBands1d
  exact (argsortDesc_pairwise hist).map _ fun i j h => h

theorem plotFreqScanHist_ok_shape (data : List Record)
    (fbArg : FreqBandsArg) (boundary : Option (PyNum × PyNum))
    (omitBands : Option (List Int)) (l : List OBand1)
    (h : plotFreqScanHist data fbArg boundary omitBands = .ok l) :
    ∃ bands hist, l = orderedBands1d bands hist := by
  simp only [plotFreqScanHist] at h
  repeat' split at h
  all_goals try exact Except.noConfusion h
  injection h with h2
  exact ⟨_, _, h2.symm⟩

theorem plotFreqScan2dHist_ok_shape (data : List Record)
    (fbArg : FreqBandsArg) (dateBin : String)
    (boundary : Option (PyNum × PyNum)) (omitBands : Option (List Int))
    (l : List OBand1)
    (h : plotFreqScan2dHist data fbArg dateBin boundary omitBands = .ok l) :
    ∃ bands hist, l = orderedBands1d bands hist := by
  simp only [plotFreqScan2dHist] at h
  repeat' split at h
  all_goals try exact Except.noConfusion h
  injection h with h2
  exact ⟨_, _, h2.symm⟩

theorem getD_map_div (l : List Nat) (t : ℚ) (i : Nat) :
    (l.map fun c => (c : ℚ) / t).getD i 0 = ((l.getD i 0 : Nat) : ℚ) / t := by
  induction l generalizing i with
  | nil => simp [List.getD]
  | cons c cs ih =>
    cases i with
    | zero => simp
    | succ j => simpa using ih j

theorem nat_sum_zero {l : List Nat} (h : l.sum = 0) : ∀ x ∈ l, x = 0 := by
  induction l with
  | nil => simp
  | cons c cs ih =>
    rw [List.sum_cons, Nat.add_eq_zero] at h
    intro x hx
    rcases List.mem_cons.mp hx with rfl | hx
    · exact h.1
    · exact ih h.2 x hx

theorem colSum_zero_cell {m : List (List Nat)} {j : Nat}
    (h : colSum m j = 0) (i : Nat) : (m.getD i []).getD j 0 = 0 := by
  unfold colSum at h
  cases hm : m[i]? with
  | none =>
    rw [List.getD_eq_getElem?_getD m i [], hm]
    simp [List.getD]
  | some row =>
    rw [List.getD_eq_getElem?_getD m i [], hm]
    simp only [Option.getD_some]
    have hrow : row ∈ m := List.getElem?_mem hm
    have hmem : row.getD j 0 ∈ m.map fun r => r.getD j 0 :=
      List.mem_map.mpr ⟨row, hrow, rfl⟩
    exact nat_sum_zero h _ hmem

theorem getD_map_range (n : Nat) (f : Nat → ℚ) (j : Nat) :
    ((List.range n).map f).getD j 0 = if j < n then f j else 0 := by
  by_cases hj : j < n
  · rw [List.getD_eq_getElem?_getD, List.getElem?_map, List.getElem?_range hj]
    simp [hj]
  · rw [List.getD_eq_getElem?_getD, List.getElem?_map,
      List.getElem?_eq_none (by simpa using Nat.le_of_not_lt hj)]
    simp [hj]

theorem normalizeCols_cell (m : List (List Nat)) (i j : Nat) :
    ((normalizeCols m).getD i []).getD j 0 =
      if 0 < colSum m j then
        ((m.getD i []).getD j 0 : ℚ) / (colSum m j : ℚ)
      else ((m.getD i []).getD j 0 : ℚ) := by
  unfold normalizeCols
  rw [List.getD_eq_getElem?_getD (List.map _ m) i [], List.getElem?_map]
  cases hm : m[i]? with
  | none =>
    have hz : (m.getD i []).getD j 0 = 0 := by
      rw [List.getD_eq_getElem?_getD m i [], hm]
      simp [List.getD]
    rw [hz]
    simp only [Option.map_none, Option.getD_none, List.getD]
    by_cases hc : 0 < colSum m j <;> simp [hc]
  | some row =>
    have hrw : m.getD i [] = row := by
      rw [List.getD_eq_getElem?_getD m i [], hm]
      rfl
    rw [hrw]
    simp only [Option.map_some', Option.getD_some]
    rw [getD_map_range]
    by_cases hj : j < row.length
    · simp [hj]
    · have hz2 : row[j]? = none := List.getElem?_eq_none (Nat.le_of_not_lt hj)
      by_cases hc : 0 < colSum m j <;> simp [hj, hz2, hc]

theorem dictLookup_int_keys (es : List (PyKey × BandVal))
    (h : ∀ e ∈ es, ∃ n, e.1 = PyKey.i n) (s : String) :
    dictLookup es (PyKey.s s) = none := by
  induction es with
  | nil => rfl
  | cons e rest ih =>
    obtain ⟨n, hn⟩ := h e (by simp)
    unfold dictLookup
    rw [if_neg (by rw [hn]; intro hc; exact PyKey.noConfusion hc)]
    exact ih fun x hx => h x (by simp [hx])

theorem bandPairs_keys (es : List (PyKey × BandVal))
    (h : ∀ e ∈ es, ∃ n, e.1 = PyKey.i n) :
    ∀ e ∈ bandPairs es, ∃ n, e.1 = PyKey.i n := by
  intro e he
  obtain ⟨a, ha, hfa⟩ := List.mem_filterMap.mp he
  obtain ⟨n, hn⟩ := h a ha
  refine ⟨n, ?_⟩
  revert hfa
  cases a.2 with
  | other => intro hfa; exact Option.noConfusion hfa
  | vlist xs =>
    cases xs with
    | nil => intro hfa; exact Option.noConfusion hfa
    | cons x xs2 =>
      cases xs2 with
      | nil => intro hfa; exact Option.noConfusion hfa
      | cons y xs3 =>
        cases xs3 with
        | nil =>
          intro hfa
          injection hfa with hfa2
          rw [← hfa2, hn]
        | cons z xs4 => intro hfa; exact Option.noConfusion hfa

theorem gatherBands2d_int_keys_ok (bd : PyNum × PyNum) :
    ∀ entries : List (PyKey × PyNum × PyNum),
      (∀ e ∈ entries, ∃ n, e.1 = PyKey.i n) →
      ∃ l, gatherBands2d bd entries = .ok l := by
  intro entries
  induction entries with
  | nil => exact fun _ => ⟨[], rfl⟩
  | cons e rest ih =>
    intro h
    obtain ⟨n, hn⟩ := h e (by simp)
    obtain ⟨l2, hl2⟩ := ih fun x hx => h x (by simp [hx])
    unfold gatherBands2d
    by_cases hk : keep2d bd e.2 = true
    · rw [if_pos hk, hn]
      unfold intOfKey
      rw [hl2]
      exact ⟨(n, e.2) :: l2, rfl⟩
    · rw [if_neg hk]
      exact ⟨l2, hl2⟩

theorem resolveOmit_int_keys (es : List (PyKey × BandVal))
    (h : ∀ e ∈ es, ∃ n, e.1 = PyKey.i n) (b : Int) (rest : List Int) :
    resolveOmit (.dict es) (some (b :: rest)) = .error .invalidInput := by
  have hnone : omitList es (b :: rest) = none := by
    unfold omitList omitLookup
    rw [dictLookup_int_keys es h (toString b)]
    rfl
  unfold resolveOmit
  simp only [entriesOf, hnone]

/-- C1: Sample extractor contract (both entry points).  A record
contributes to the histogram iff its channel is 2, its `tfreq` is finite,
strictly inside the boundary, inside no omitted interval, and it has a
`gflg` sequence; a contributing record adds the number of `gflg == 0`
positions to the first band (in filtered order) whose closed interval
contains `tfreq`; a record matched by no band contributes nothing.  The 1D
extraction step and full loop coincide with the step and fold prescribed by
the claim (`specStep1d` built on `specRetained`); the 2D step leaves the
state unchanged for non-retained records and for retained records matching
no band, and adds the count at the matched band and bucket otherwise. -/
theorem freq_scan_extraction_contract :
    (∀ bands bd rm hist r,
        histStep1d bands bd rm hist r = specStep1d bands bd rm hist r) ∧
    (∀ bands bd rm data,
        rawHist1d bands bd rm data =
          data.foldl (specStep1d bands bd rm) (List.replicate bands.length 0)) ∧
    (∀ bands bd rm dateBin dates st r, specRetained bd rm r = false →
        histStep2d bands bd rm dateBin dates st r = .ok st) ∧
    (∀ bands bd rm dateBin dates st r f, r.tfreq = .finite f →
        specRetained bd rm r = true → firstMatch bands f = none →
        histStep2d bands bd rm dateBin dates st r = .ok st) ∧
    (∀ bands bd rm dateBin dates st r f g i d j, r.tfreq = .finite f →
        r.gflg = some g → specRetained bd rm r = true →
        firstMatch bands f = some i → dateOf dateBin st.2 r = some d →
        idxOfDate dates d = some j →
        histStep2d bands bd rm dateBin dates st r =
          .ok (bump2d st.1 i j (count0 g), some d)) :=
  ⟨histStep1d_eq_specStep1d,
   fun bands bd rm data => rawHist1dAux_eq_specFold bands bd rm data _,
   fun bands bd rm dateBin dates st r h =>
     histStep2d_not_retained bands bd rm dateBin dates st r h,
   fun bands bd rm dateBin dates st r f htf h hfm =>
     histStep2d_no_band bands bd rm dateBin dates st r f htf h hfm,
   fun bands bd rm dateBin dates st r f g i d j htf hgf h hfm hdt hix =>
     histStep2d_hit bands bd rm dateBin dates st r f g i d j htf hgf h hfm
       hdt hix⟩

/-- Witness for C1: a concrete channel-2 record with `gflg = [0, 1, 0]`
(two ionospheric points) at an odd hour; all hypotheses hold and the 2D
step adds 2 to the matched band's cell. -/
theorem freq_scan_extraction_contract_witness :
    specRetained (pn 0, pn 20000) none
        ⟨2, .finite (pn 9000), some [0, 1, 0], 2020, 1, 1, 13⟩ = true ∧
    firstMatch [(pn 8000, pn 10000)] (pn 9000) = some 0 ∧
    histStep1d [(pn 8000, pn 10000)] (pn 0, pn 20000) none [0]
        ⟨2, .finite (pn 9000), some [0, 1, 0], 2020, 1, 1, 13⟩ =
      specStep1d [(pn 8000, pn 10000)] (pn 0, pn 20000) none [0]
        ⟨2, .finite (pn 9000), some [0, 1, 0], 2020, 1, 1, 13⟩ ∧
    histStep2d [(pn 8000, pn 10000)] (pn 0, pn 20000) none "hour"
        [⟨1, 1, 1, 14⟩] ([[0]], some ⟨1, 1, 1, 14⟩)
        ⟨2, .finite (pn 9000), some [0, 1, 0], 2020, 1, 1, 13⟩ =
      .ok ([[2]], some ⟨1, 1, 1, 14⟩) := by
  refine ⟨by decide, by decide, ?_, ?_⟩
  · exact freq_scan_extraction_contract.1 _ _ _ _ _
  · have h := freq_scan_extraction_contract.2.2.2.2 [(pn 8000, pn 10000)]
      (pn 0, pn 20000) none "hour" [⟨1, 1, 1, 14⟩]
      ([[0]], some ⟨1, 1, 1, 14⟩)
      ⟨2, .finite (pn 9000), some [0, 1, 0], 2020, 1, 1, 13⟩
      (pn 9000) [0, 1, 0] 0 ⟨1, 1, 1, 14⟩ 0
      (by decide) (by decide) (by decide) (by decide) (by decide) (by decide)
    exact h.trans (by decide)

/-- C2 (failing-input evaluation): on `{'0': [1, 100], '1': [2, 3]}` the
derived default boundary is `(1, 3)` — `max(max(values))` picks the high
endpoint of the lexicographically greatest `[low, high]` pair, not the
global maximum high — while the spec's `(min of all lows, max of all
highs)` is `(1, 100)`.  Consequently the 1D entry point drops a channel-2
record at 50 kHz and excludes band `'0'` from the ranking, where the
spec's boundary would retain both. -/
theorem default_boundary_not_global_extent :
    defaultBoundary [(pn 1, pn 100), (pn 2, pn 3)] = .ok (pn 1, pn 3) ∧
    specDefaultBoundary [(pn 1, pn 100), (pn 2, pn 3)] = some (pn 1, pn 100) ∧
    (pn 3 : PyNum) ≠ pn 100 ∧
    plotFreqScanHist [⟨2, .finite (pn 50), some [0], 2020, 1, 1, 0⟩]
        (.dict [(.s "0", .vlist [pn 1, pn 100]), (.s "1", .vlist [pn 2, pn 3])])
        none none =
      .ok [⟨0, pn 2, pn 3, 0⟩] := by
  decide

/-- C3 (failing-input evaluation): omitting band `'2'` from a 3-band table
keeps records inside its range out of the counting, and an unknown omitted
identifier fails with the InvalidInput error; but the omitted band is NOT
removed from the returned ranked band list — both entry points still
return an entry for band index 2 with range `[12000, 14000]` and count 0,
contradicting the claim (and the function's own docstring). -/
theorem omitted_band_remains_in_ranking :
    plotFreqScanHist [⟨2, .finite (pn 9000), some [0, 0], 2020, 1, 1, 0⟩]
        (.dict [(.s "0", .vlist [pn 8000, pn 10000]),
                (.s "1", .vlist [pn 10000, pn 12000]),
                (.s "2", .vlist [pn 12000, pn 14000])])
        none (some [2]) =
      .ok [⟨0, pn 8000, pn 10000, 2⟩, ⟨2, pn 12000, pn 14000, 0⟩,
           ⟨1, pn 10000, pn 12000, 0⟩] ∧
    plotFreqScan2dHist [⟨2, .finite (pn 9000), some [0, 0], 2020, 1, 1, 0⟩]
        (.dict [(.s "0", .vlist [pn 8000, pn 10000]),
                (.s "1", .vlist [pn 10000, pn 12000]),
                (.s "2", .vlist [pn 12000, pn 14000])])
        "year" none (some [2]) =
      .ok [⟨0, pn 8000, pn 10000, 2⟩, ⟨2, pn 12000, pn 14000, 0⟩,
           ⟨1, pn 10000, pn 12000, 0⟩] ∧
    plotFreqScanHist [⟨2, .finite (pn 13000), some [0, 0], 2020, 1, 1, 0⟩]
        (.dict [(.s "0", .vlist [pn 8000, pn 10000]),
                (.s "1", .vlist [pn 10000, pn 12000]),
                (.s "2", .vlist [pn 12000, pn 14000])])
        none (some [2]) =
      .ok [⟨2, pn 12000, pn 14000, 0⟩, ⟨1, pn 10000, pn 12000, 0⟩,
           ⟨0, pn 8000, pn 10000, 0⟩] ∧
    plotFreqScanHist [⟨2, .finite (pn 9000), some [0, 0], 2020, 1, 1, 0⟩]
        (.dict [(.s "0", .vlist [pn 8000, pn 10000]),
                (.s "1", .vlist [pn 10000, pn 12000]),
                (.s "2", .vlist [pn 12000, pn 14000])])
        none (some [9]) =
      .error .invalidInput := by
  decide

/-- C4 (counterexample): with `date_bin = 'hour'`, a channel-2 record at
hour 13 following one at hour 14 is NOT dropped: the `date` variable is
stale, so its count lands in bucket 14, which ends at 2 where the claim
predicts 1; the ranked output counts it as well. -/
theorem odd_hour_record_not_dropped :
    freqScan2dMatrix
        [⟨2, .finite (pn 9000), some [0], 2020, 1, 1, 14⟩,
         ⟨2, .finite (pn 9000), some [0], 2020, 1, 1, 13⟩]
        (.dict [(.s "0", .vlist [pn 8000, pn 10000])]) "hour" none none =
      .ok ([⟨1, 1, 1, 14⟩], [[2]]) ∧
    plotFreqScan2dHist
        [⟨2, .finite (pn 9000), some [0], 2020, 1, 1, 14⟩,
         ⟨2, .finite (pn 9000), some [0], 2020, 1, 1, 13⟩]
        (.dict [(.s "0", .vlist [pn 8000, pn 10000])]) "hour" none none =
      .ok [⟨0, pn 8000, pn 10000, 1 + 1⟩] ∧
    ([[2]] : List (List Nat)) ≠ [[1]] := by
  decide

/-- C4 (amended): with `date_bin = 'hour'`, an even-hour retained record
contributes to the bucket keyed by its own hour; an odd-hour retained
record is not dropped — it contributes to the bucket held by the stale
`date` variable; and a record list whose first channel-2 record has an odd
hour makes the call fail (`NameError` from the unbound `date` variable in
the gather loop). -/
theorem hour_parity_stale_bucket :
    (∀ bands bd rm dates st (r : Record) f g i j, r.tfreq = .finite f →
        r.gflg = some g → specRetained bd rm r = true →
        firstMatch bands f = some i → r.hr % 2 = 0 →
        idxOfDate dates ⟨1, 1, 1, r.hr⟩ = some j →
        histStep2d bands bd rm "hour" dates st r =
          .ok (bump2d st.1 i j (count0 g), some ⟨1, 1, 1, r.hr⟩)) ∧
    (∀ bands bd rm dates (m : List (List Nat)) (r : Record) f g i d j,
        r.tfreq = .finite f →
        r.gflg = some g → specRetained bd rm r = true →
        firstMatch bands f = some i → r.hr % 2 = 1 →
        idxOfDate dates d = some j →
        histStep2d bands bd rm "hour" dates (m, some d) r =
          .ok (bump2d m i j (count0 g), some d)) ∧
    (∀ (r : Record) rs, r.channel = 2 → r.hr % 2 = 1 →
        gatherDates "hour" (r :: rs) = .error .nameError) := by
  refine ⟨?_, ?_, ?_⟩
  · intro bands bd rm dates st r f g i j htf hgf h hfm hev hix
    exact histStep2d_hit bands bd rm "hour" dates st r f g i ⟨1, 1, 1, r.hr⟩ j
      htf hgf h hfm (by rw [dateOf_hour, if_pos hev]) hix
  · intro bands bd rm dates m r f g i d j htf hgf h hfm hodd hix
    exact histStep2d_hit bands bd rm "hour" dates (m, some d) r f g i d j
      htf hgf h hfm (by rw [dateOf_hour]; simp [Nat.mod_two_ne_zero.mpr hodd, hodd]) hix
  · intro r rs hch hodd
    unfold gatherDates gatherDatesAux
    rw [if_pos hch, gatherDateOf_hour]
    simp [Nat.mod_two_ne_zero.mpr hodd, hodd]

/-- Witness for C4 (amended): concrete even-hour and odd-hour records, and
a record list starting with an odd-hour channel-2 record. -/
theorem hour_parity_stale_bucket_witness :
    histStep2d [(pn 8000, pn 10000)] (pn 0, pn 20000) none "hour"
        [⟨1, 1, 1, 14⟩] ([[0]], none)
        ⟨2, .finite (pn 9000), some [0], 2020, 1, 1, 14⟩ =
      .ok ([[1]], some ⟨1, 1, 1, 14⟩) ∧
    histStep2d [(pn 8000, pn 10000)] (pn 0, pn 20000) none "hour"
        [⟨1, 1, 1, 14⟩] ([[1]], some ⟨1, 1, 1, 14⟩)
        ⟨2, .finite (pn 9000), some [0], 2020, 1, 1, 13⟩ =
      .ok ([[2]], some ⟨1, 1, 1, 14⟩) ∧
    gatherDates "hour" [⟨2, .finite (pn 9000), some [0], 2020, 1, 1, 13⟩] =
      .error .nameError := by
  refine ⟨?_, ?_, ?_⟩
  · have h := hour_parity_stale_bucket.1 [(pn 8000, pn 10000)]
      (pn 0, pn 20000) none [⟨1, 1, 1, 14⟩] ([[0]], none)
      ⟨2, .finite (pn 9000), some [0], 2020, 1, 1, 14⟩
      (pn 9000) [0] 0 0 (by decide) (by decide) (by decide) (by decide)
      (by decide) (by decide)
    exact h.trans (by decide)
  · have h := hour_parity_stale_bucket.2.1 [(pn 8000, pn 10000)]
      (pn 0, pn 20000) none [⟨1, 1, 1, 14⟩] [[1]]
      ⟨2, .finite (pn 9000), some [0], 2020, 1, 1, 13⟩
      (pn 9000) [0] 0 ⟨1, 1, 1, 14⟩ 0 (by decide) (by decide) (by decide)
      (by decide) (by decide) (by decide)
    exact h.trans (by decide)
  · exact hour_parity_stale_bucket.2.2
      ⟨2, .finite (pn 9000), some [0], 2020, 1, 1, 13⟩ [] (by decide)
      (by decide)

/-- C6 (counterexample): a non-empty record list in which every record has
channel 1 does not fail at all — `plot_freq_scan_hist` returns a ranked
list of zero-count bands instead of raising `DataUnavailable` (no such
error path exists in the function). -/
theorem empty_extraction_returns_ranking :
    plotFreqScanHist [⟨1, .finite (pn 9000), some [0], 2020, 1, 1, 0⟩]
        (.dict [(.s "0", .vlist [pn 8000, pn 10000]),
                (.s "1", .vlist [pn 10000, pn 12000])]) none none =
      .ok [⟨1, pn 10000, pn 12000, 0⟩, ⟨0, pn 8000, pn 10000, 0⟩] ∧
    plotFreqScanHist [⟨1, .finite (pn 9000), some [0], 2020, 1, 1, 0⟩]
        (.dict [(.s "0", .vlist [pn 8000, pn 10000]),
                (.s "1", .vlist [pn 10000, pn 12000])]) none none ≠
      .error .dataUnavailable := by
  decide

/-- C6 (amended): when every record has channel ≠ 2 (so no sample survives
filtering), `plot_freq_scan_hist` does not fail with `DataUnavailable`:
whenever its validation, boundary and omit resolution succeed, it returns
a ranked band list in which every entry's count is zero. -/
theorem empty_extraction_zero_counts (data : List Record)
    (fbArg : FreqBandsArg) (boundary : Option (PyNum × PyNum))
    (omitBands : Option (List Int)) (bd : PyNum × PyNum)
    (rm : Option (List (PyNum × PyNum)))
    (hval : validBands fbArg = true)
    (hbd : resolveBoundary boundary
        ((bandPairs (entriesOf fbArg)).map Prod.snd) = .ok bd)
    (hrm : resolveOmit fbArg omitBands = .ok rm)
    (hch : ∀ r ∈ data, r.channel ≠ 2) :
    ∃ l, plotFreqScanHist data fbArg boundary omitBands = .ok l ∧
      ∀ ob ∈ l, ob.count = 0 := by
  unfold plotFreqScanHist
  rw [if_pos hval]
  simp only [hbd, hrm]
  refine ⟨_, rfl, ?_⟩
  intro ob hob
  rw [orderedBands1d_mem_count _ _ _ hob]
  unfold rawHist1d
  rw [rawHist1dAux_skip _ _ _ _ _ hch, getD_replicate_zero]

/-- Witness for C6 (amended): the concrete all-channel-1 input of the
counterexample, through the amended theorem. -/
theorem empty_extraction_zero_counts_witness :
    ∃ l, plotFreqScanHist [⟨1, .finite (pn 9000), some [0], 2020, 1, 1, 0⟩]
        (.dict [(.s "0", .vlist [pn 8000, pn 10000]),
                (.s "1", .vlist [pn 10000, pn 12000])]) none none = .ok l ∧
      ∀ ob ∈ l, ob.count = 0 := by
  refine empty_extraction_zero_counts _ _ _ _ (pn 8000, pn 12000) none
    (by decide) (by decide) (by decide) ?_
  intro r hr
  simp only [List.mem_singleton] at hr
  rw [hr]
  decide

/-- C7: Asymmetric band filtering.  The 1D path retains a band iff its
center `(low+high)/2` is strictly inside the boundary (the source's skip
test `center <= b0 or center >= b1` negated), and the 2D path retains a
band iff `low >= boundary.low` and `high <= boundary.high` (the source's
`value[0] < b0 or value[1] > b1` negated); the retained lists are exactly
the so-filtered entries. -/
theorem band_filter_policies :
    (∀ bd (b : PyNum × PyNum),
        keep1d bd b =
          (pyLt bd.1 (bandCenter b) && pyLt (bandCenter b) bd.2)) ∧
    (∀ entries bd (e : PyKey × PyNum × PyNum),
        e ∈ gatherBands1d entries bd ↔ e ∈ entries ∧ keep1d bd e.2 = true) ∧
    (∀ bd (b : PyNum × PyNum),
        keep2d bd b = (pyLe bd.1 b.1 && pyLe b.2 bd.2)) ∧
    (∀ entries bd l (v : PyNum × PyNum), gatherBands2d bd entries = .ok l →
        (v ∈ l.map Prod.snd ↔
          v ∈ entries.map Prod.snd ∧ (pyLe bd.1 v.1 && pyLe v.2 bd.2) = true)) := by
  refine ⟨?_, ?_, ?_, ?_⟩
  · intro bd b
    simp [keep1d, pyLe, Bool.not_or]
  · intro entries bd e
    unfold gatherBands1d
    exact List.mem_filter
  · intro bd b
    simp [keep2d, pyLe, Bool.not_or]
  · intro entries bd l v h
    rw [gatherBands2d_ok_snd bd entries l h]
    constructor
    · intro hv
      obtain ⟨e, he, rfl⟩ := List.mem_map.mp hv
      have hm := List.mem_filter.mp he
      refine ⟨List.mem_map.mpr ⟨e, hm.1, rfl⟩, ?_⟩
      have hk := hm.2
      simpa [keep2d, pyLe, Bool.not_or] using hk
    · rintro ⟨hv, hcond⟩
      obtain ⟨e, he, rfl⟩ := List.mem_map.mp hv
      refine List.mem_map.mpr ⟨e, List.mem_filter.mpr ⟨he, ?_⟩, rfl⟩
      simpa [keep2d, pyLe, Bool.not_or] using hcond

/-- Witness for C7: a boundary `(8000, 12000)`, one band inside and one
outside; the 2D retained values are characterized as claimed. -/
theorem band_filter_policies_witness :
    gatherBands2d (pn 8000, pn 12000)
        [(PyKey.s "0", pn 8000, pn 10000), (PyKey.s "1", pn 11000, pn 14000)] =
      .ok [((0 : Int), pn 8000, pn 10000)] ∧
    ((pn 8000, pn 10000) ∈
        ([((0 : Int), pn 8000, pn 10000)].map Prod.snd) ↔
      (pn 8000, pn 10000) ∈
          ([(PyKey.s "0", pn 8000, pn 10000),
            (PyKey.s "1", pn 11000, pn 14000)].map Prod.snd) ∧
        (pyLe (pn 8000, pn 12000).1 (pn 8000) &&
          pyLe (pn 10000) (pn 8000, pn 12000).2) = true) := by
  refine ⟨by decide, ?_⟩
  exact band_filter_policies.2.2.2
    [(PyKey.s "0", pn 8000, pn 10000), (PyKey.s "1", pn 11000, pn 14000)]
    (pn 8000, pn 12000) [((0 : Int), pn 8000, pn 10000)]
    (pn 8000, pn 10000) (by decide)

/-- C5 (counterexample): with the single-band table `{'7': [8000, 10000]}`
both entry points return `Band = 0` — the band's position in the filtered
band list — not the band-table key 7. -/
theorem ranked_band_id_is_position :
    plotFreqScanHist [⟨2, .finite (pn 9000), some [0], 2020, 1, 1, 0⟩]
        (.dict [(.s "7", .vlist [pn 8000, pn 10000])]) none none =
      .ok [⟨0, pn 8000, pn 10000, 1⟩] ∧
    plotFreqScanHist [⟨2, .finite (pn 9000), some [0], 2020, 1, 1, 0⟩]
        (.dict [(.s "7", .vlist [pn 8000, pn 10000])]) none none ≠
      .ok [⟨7, pn 8000, pn 10000, 1⟩] ∧
    plotFreqScan2dHist [⟨2, .finite (pn 9000), some [0], 2020, 1, 1, 0⟩]
        (.dict [(.s "7", .vlist [pn 8000, pn 10000])]) "year" none none =
      .ok [⟨0, pn 8000, pn 10000, 1⟩] := by
  decide

/-- C5 (amended): both entry points return a list sorted by descending
count; each entry exposes the band's POSITION in the filtered band list
(the argsort index, not the band-table key), that band's `[low, high]`
range, and its count; the positions are a permutation of all filtered-band
indices. -/
theorem ranked_output_structure :
    (∀ bands hist,
        (orderedBands1d bands hist).map OBand1.band = argsortDesc hist ∧
        (argsortDesc hist).Perm (List.range hist.length) ∧
        List.Pairwise (fun a b : OBand1 => b.count ≤ a.count)
          (orderedBands1d bands hist) ∧
        ∀ ob ∈ orderedBands1d bands hist,
          ob.lo = (bands.getD ob.band (pn 0, pn 0)).1 ∧
          ob.hi = (bands.getD ob.band (pn 0, pn 0)).2 ∧
          ob.count = hist.getD ob.band 0) ∧
    (∀ data fbArg boundary omitBands l,
        plotFreqScanHist data fbArg boundary omitBands = .ok l →
        List.Pairwise (fun a b : OBand1 => b.count ≤ a.count) l) ∧
    (∀ data fbArg dateBin boundary omitBands l,
        plotFreqScan2dHist data fbArg dateBin boundary omitBands = .ok l →
        List.Pairwise (fun a b : OBand1 => b.count ≤ a.count) l) := by
  refine ⟨?_, ?_, ?_⟩
  · intro bands hist
    refine ⟨?_, argsortDesc_perm hist, orderedBands1d_pairwise bands hist, ?_⟩
    · unfold orderedBands1d
      rw [List.map_map]
      exact List.map_id'' (fun x => rfl) _
    · intro ob hob
      unfold orderedBands1d at hob
      obtain ⟨i, _, rfl⟩ := List.mem_map.mp hob
      exact ⟨rfl, rfl, rfl⟩
  · intro data fbArg boundary omitBands l h
    obtain ⟨bands, hist, rfl⟩ :=
      plotFreqScanHist_ok_shape data fbArg boundary omitBands l h
    exact orderedBands1d_pairwise bands hist
  · intro data fbArg dateBin boundary omitBands l h
    obtain ⟨bands, hist, rfl⟩ :=
      plotFreqScan2dHist_ok_shape data fbArg dateBin boundary omitBands l h
    exact orderedBands1d_pairwise bands hist

/-- Witness for C5 (amended): the concrete 3-band run of the C3 input is
sorted descending by count. -/
theorem ranked_output_structure_witness :
    plotFreqScanHist [⟨2, .finite (pn 9000), some [0, 0], 2020, 1, 1, 0⟩]
        (.dict [(.s "0", .vlist [pn 8000, pn 10000]),
                (.s "1", .vlist [pn 10000, pn 12000]),
                (.s "2", .vlist [pn 12000, pn 14000])]) none none =
      .ok [⟨0, pn 8000, pn 10000, 2⟩, ⟨2, pn 12000, pn 14000, 0⟩,
           ⟨1, pn 10000, pn 12000, 0⟩] ∧
    List.Pairwise (fun a b : OBand1 => b.count ≤ a.count)
      [⟨0, pn 8000, pn 10000, 2⟩, ⟨2, pn 12000, pn 14000, 0⟩,
       (⟨1, pn 10000, pn 12000, 0⟩ : OBand1)] := by
  constructor
  · decide
  · exact ranked_output_structure.2.1
      [⟨2, .finite (pn 9000), some [0, 0], 2020, 1, 1, 0⟩]
      (.dict [(.s "0", .vlist [pn 8000, pn 10000]),
              (.s "1", .vlist [pn 10000, pn 12000]),
              (.s "2", .vlist [pn 12000, pn 14000])]) none none _ (by decide)

/-- C8: Normalization contract.  With normalization requested, every 1D
bin is divided by the grand total unless that total is zero, in which case
the raw counts are kept; each 2D column is divided by its own sum, and a
column summing to zero stays all zeros (its raw cells are zero and its
normalized cells are zero). -/
theorem normalization_contract :
    (∀ (hist : List Nat) i, hist.sum ≠ 0 →
        (finalHist1d true hist).getD i 0 =
          ((hist.getD i 0 : Nat) : ℚ) / (hist.sum : ℚ)) ∧
    (∀ hist : List Nat, hist.sum = 0 →
        finalHist1d true hist = hist.map fun c => (c : ℚ)) ∧
    (∀ (m : List (List Nat)) i j, 0 < colSum m j →
        ((normalizeCols m).getD i []).getD j 0 =
          (((m.getD i []).getD j 0 : Nat) : ℚ) / (colSum m j : ℚ)) ∧
    (∀ (m : List (List Nat)) i j, colSum m j = 0 →
        (m.getD i []).getD j 0 = 0 ∧
        ((normalizeCols m).getD i []).getD j 0 = 0) ∧
    (∀ m : List (List Nat), finalHist2d true m = normalizeCols m) := by
  refine ⟨?_, ?_, ?_, ?_, ?_⟩
  · intro hist i h
    unfold finalHist1d
    rw [if_pos ⟨rfl, h⟩, getD_map_div]
  · intro hist h
    unfold finalHist1d
    rw [if_neg fun hc => hc.2 h]
  · intro m i j h
    rw [normalizeCols_cell, if_pos h]
  · intro m i j h
    refine ⟨colSum_zero_cell h i, ?_⟩
    rw [normalizeCols_cell, if_neg (by simp [h]), colSum_zero_cell h i]
    simp
  · intro m
    rfl

/-- Witness for C8: the spec's own example — a column `[3, 1]` normalizes
to `[3/4, 1/4]`, an all-zero column stays zero, and a 1D histogram `[1, 3]`
has its first bin divided by the grand total 4. -/
theorem normalization_contract_witness :
    (finalHist1d true [1, 3]).getD 0 0 = ((1 : Nat) : ℚ) / ((4 : Nat) : ℚ) ∧
    ((normalizeCols [[3], [1]]).getD 0 []).getD 0 0 =
      ((3 : Nat) : ℚ) / ((4 : Nat) : ℚ) ∧
    ((normalizeCols [[3], [1]]).getD 1 []).getD 0 0 =
      ((1 : Nat) : ℚ) / ((4 : Nat) : ℚ) ∧
    ((normalizeCols [[0], [0]]).getD 0 []).getD 0 0 = 0 := by
  refine ⟨?_, ?_, ?_, ?_⟩
  · exact normalization_contract.1 [1, 3] 0 (by decide)
  · exact normalization_contract.2.2.1 [[3], [1]] 0 0 (by decide)
  · exact normalization_contract.2.2.1 [[3], [1]] 1 0 (by decide)
  · exact (normalization_contract.2.2.2.1 [[0], [0]] 0 0 (by decide)).2

/-- C9: Band-table validation.  Validation fails exactly when the argument
is not a dict or some value is not a two-element list, and a failing
validation makes both entry points return the InvalidInput error whatever
the other arguments are (it is the first check performed). -/
theorem band_table_validation :
    validBands .notDict = false ∧
    (∀ es, validBands (.dict es) = true ↔
        ∀ e ∈ es, ∃ xs, e.2 = BandVal.vlist xs ∧ xs.length = 2) ∧
    (∀ data fbArg boundary omitBands dateBin, validBands fbArg = false →
        plotFreqScanHist data fbArg boundary omitBands =
          .error .invalidInput ∧
        plotFreqScan2dHist data fbArg dateBin boundary omitBands =
          .error .invalidInput) := by
  refine ⟨rfl, ?_, ?_⟩
  · intro es
    unfold validBands
    rw [List.all_eq_true]
    constructor
    · intro h e he
      have he2 := h e he
      revert he2
      cases hv : e.2 with
      | vlist xs =>
        intro he2
        simp only [beq_iff_eq] at he2
        exact ⟨xs, rfl, he2⟩
      | other => intro he2; exact Bool.noConfusion he2
    · intro h e he
      obtain ⟨xs, hxs, hlen⟩ := h e he
      rw [hxs]
      simp [hlen]
  · intro data fbArg boundary omitBands dateBin h
    constructor
    · unfold plotFreqScanHist
      rw [if_neg (by rw [h]; exact Bool.false_ne_true)]
    · unfold plotFreqScan2dHist
      rw [if_neg (by rw [h]; exact Bool.false_ne_true)]

/-- Witness for C9: the spec's own example — a table in which one entry has
three elements instead of two fails with InvalidInput (and so does a
non-dict argument). -/
theorem band_table_validation_witness :
    plotFreqScanHist [] (.dict [(.s "0", .vlist [pn 1, pn 2, pn 3])])
        none none = .error .invalidInput ∧
    plotFreqScan2dHist [] .notDict "hour" none none =
      .error .invalidInput := by
  constructor
  · exact (band_table_validation.2.2 [] (.dict [(.s "0", .vlist [pn 1, pn 2, pn 3])])
      none none "hour" (by decide)).1
  · exact (band_table_validation.2.2 [] .notDict none none "hour"
      (by decide)).2

/-- C10: Omit identifiers are resolved through `freq_bands[str(band)]`.
With a valid band table whose keys are all integer keys, any non-empty
`omit_bands` request makes both entry points fail with InvalidInput even
though the identifiers exist as integer keys; an integer identifier whose
string form is a key resolves to that key's interval. -/
theorem omit_resolution_str_keys :
    (∀ data es boundary bd b rest dateBin,
        validBands (.dict es) = true →
        (∀ e ∈ es, ∃ n, e.1 = PyKey.i n) →
        resolveBoundary boundary ((bandPairs es).map Prod.snd) = .ok bd →
        plotFreqScanHist data (.dict es) boundary (some (b :: rest)) =
          .error .invalidInput ∧
        plotFreqScan2dHist data (.dict es) dateBin boundary
            (some (b :: rest)) = .error .invalidInput) ∧
    (∀ es b lo hi,
        dictLookup es (PyKey.s (toString b)) = some (.vlist [lo, hi]) →
        resolveOmit (.dict es) (some [b]) = .ok (some [(lo, hi)])) := by
  constructor
  · intro data es boundary bd b rest dateBin hval hkeys hbd
    have hro := resolveOmit_int_keys es hkeys b rest
    constructor
    · unfold plotFreqScanHist
      rw [if_pos hval]
      simp only [entriesOf, hbd, hro]
    · unfold plotFreqScan2dHist
      rw [if_pos hval]
      obtain ⟨kb, hkb⟩ :=
        gatherBands2d_int_keys_ok bd (bandPairs es) (bandPairs_keys es hkeys)
      simp only [entriesOf, hbd, hkb, hro]
  · intro es b lo hi h
    unfold resolveOmit
    have hsome : omitList es [b] = some [(lo, hi)] := by
      unfold omitList omitLookup
      rw [h]
      rfl
    simp only [entriesOf, hsome]

/-- Witness for C10: a one-band table with the integer key `0` rejects
`omit_bands = [0]` in both entry points, while the string-keyed table
`{'2': [12000, 14000]}` accepts the integer identifier 2. -/
theorem omit_resolution_str_keys_witness :
    plotFreqScanHist [] (.dict [(.i 0, .vlist [pn 8000, pn 10000])])
        none (some [0]) = .error .invalidInput ∧
    plotFreqScan2dHist [] (.dict [(.i 0, .vlist [pn 8000, pn 10000])])
        "hour" none (some [0]) = .error .invalidInput ∧
    resolveOmit (.dict [(.s "2", .vlist [pn 12000, pn 14000])]) (some [2]) =
      .ok (some [(pn 12000, pn 14000)]) := by
  have h := omit_resolution_str_keys.1 [] [(.i 0, .vlist [pn 8000, pn 10000])]
    none (pn 8000, pn 10000) 0 [] "hour" (by decide)
    (by intro e he; simp only [List.mem_singleton] at he; exact ⟨0, by rw [he]⟩)
    (by decide)
  refine ⟨h.1, h.2, ?_⟩
  exact omit_resolution_str_keys.2 [(.s "2", .vlist [pn 12000, pn 14000])]
    2 (pn 12000) (pn 14000) (by decide)

end MyDarn
